import Mathlib

/-!
Shallow embedding of the approximate Riemann solver in riemann.py
(two-shock approximation of Colella, Glaz and Ferguson).  Primitive
states are triples of real numbers; every intermediate quantity of the
kernel is a named definition mirroring the corresponding assignment in
the source, with the state sanitation of lines 64-70 factored out as
the function san.  The full kernel riemann composes the core pipeline
with san on both input states, exactly as the source does.
-/

namespace Hydro

/-- A primitive hydrodynamic state: density, velocity, pressure. -/
@[ext]
structure Prim where
  rho : ℝ
  u : ℝ
  p : ℝ

/-- The returned conserved-variable flux triple (indices URHO, UMX, UENER). -/
@[ext]
structure Flux where
  mass : ℝ
  mom : ℝ
  ener : ℝ

/-- Density floor, line 60 of riemann.py. -/
def small_rho : ℝ := 1e-10

/-- Pressure floor, line 61 of riemann.py. -/
def small_p : ℝ := 1e-10

/-- Velocity scale used in the degenerate-fan guard, line 62 of riemann.py. -/
def small_u : ℝ := 1e-10

/-- State sanitation, lines 64-70: floor density and pressure, pass velocity through. -/
noncomputable def san (q : Prim) : Prim :=
  ⟨max q.rho small_rho, q.u, max q.p small_p⟩

/-- Lagrangian sound speed of the left state, line 73: w_l = sqrt(gamma*p_l*rho_l). -/
noncomputable def w_l (l : Prim) (gamma : ℝ) : ℝ :=
  Real.sqrt (gamma * l.p * l.rho)

/-- Lagrangian sound speed of the right state, line 74: w_r = sqrt(gamma*p_r*rho_r). -/
noncomputable def w_r (r : Prim) (gamma : ℝ) : ℝ :=
  Real.sqrt (gamma * r.p * r.rho)

/-- Inverse impedance sum, line 77: wwinv = 1.0/(w_l + w_r). -/
noncomputable def wwinv (l r : Prim) (gamma : ℝ) : ℝ :=
  1 / (w_l l gamma + w_r r gamma)

/-- Star pressure before flooring, line 78. -/
noncomputable def p_star_raw (l r : Prim) (gamma : ℝ) : ℝ :=
  ((w_r r gamma * l.p + w_l l gamma * r.p) + w_l l gamma * w_r r gamma * (l.u - r.u)) *
    wwinv l r gamma

/-- Star velocity, line 79. -/
noncomputable def u_star (l r : Prim) (gamma : ℝ) : ℝ :=
  ((w_l l gamma * l.u + w_r r gamma * r.u) + (l.p - r.p)) * wwinv l r gamma

/-- Star pressure after the floor of line 81: p_star = max(p_star, small_p). -/
noncomputable def p_star (l r : Prim) (gamma : ℝ) : ℝ :=
  max (p_star_raw l r gamma) small_p

/-- Reference-state selection, lines 83-96: upwind state by the sign of u_star. -/
noncomputable def q_o (l r : Prim) (gamma : ℝ) : Prim :=
  if u_star l r gamma > 0 then l
  else if u_star l r gamma < 0 then r
  else ⟨0.5 * (l.rho + r.rho), 0.5 * (l.u + r.u), 0.5 * (l.p + r.p)⟩

/-- Reference density after the floor of line 98: rho_o = max(rho_o, small_rho). -/
noncomputable def rho_o (l r : Prim) (gamma : ℝ) : ℝ :=
  max (q_o l r gamma).rho small_rho

/-- Reference velocity, from lines 85, 90 or 95. -/
noncomputable def u_o (l r : Prim) (gamma : ℝ) : ℝ :=
  (q_o l r gamma).u

/-- Reference pressure, from lines 86, 91 or 96. -/
noncomputable def p_o (l r : Prim) (gamma : ℝ) : ℝ :=
  (q_o l r gamma).p

/-- Reference sound speed, line 100: c_o = sqrt(gamma*p_o/rho_o). -/
noncomputable def c_o (l r : Prim) (gamma : ℝ) : ℝ :=
  Real.sqrt (gamma * p_o l r gamma / rho_o l r gamma)

/-- Linearized density jump, line 103: drho = (p_star - p_o)/c_o**2. -/
noncomputable def drho (l r : Prim) (gamma : ℝ) : ℝ :=
  (p_star l r gamma - p_o l r gamma) / c_o l r gamma ^ 2

/-- Star density, line 104: rho_star = rho_o + drho. -/
noncomputable def rho_star (l r : Prim) (gamma : ℝ) : ℝ :=
  rho_o l r gamma + drho l r gamma

/-- Star sound speed, line 106: c_star = sqrt(gamma*p_star/rho_star). -/
noncomputable def c_star (l r : Prim) (gamma : ℝ) : ℝ :=
  Real.sqrt (gamma * p_star l r gamma / rho_star l r gamma)

/-- The sign function np.sign used on line 109. -/
noncomputable def sgn (x : ℝ) : ℝ :=
  if x > 0 then 1 else if x < 0 then -1 else 0

/-- Head-of-fan speed before the shock override, line 110: spout = c_o - sgn*u_o. -/
noncomputable def spout0 (l r : Prim) (gamma : ℝ) : ℝ :=
  c_o l r gamma - sgn (u_star l r gamma) * u_o l r gamma

/-- Tail-of-fan speed before the shock override, line 111: spin = c_star - sgn*u_star. -/
noncomputable def spin0 (l r : Prim) (gamma : ℝ) : ℝ :=
  c_star l r gamma - sgn (u_star l r gamma) * u_star l r gamma

/-- Mean shock speed, line 113: ushock = 0.5*(spin + spout), from the pre-override speeds. -/
noncomputable def ushock (l r : Prim) (gamma : ℝ) : ℝ :=
  0.5 * (spin0 l r gamma + spout0 l r gamma)

/-- Tail speed after the shock override of lines 115-118. -/
noncomputable def spin (l r : Prim) (gamma : ℝ) : ℝ :=
  if p_star l r gamma > p_o l r gamma then ushock l r gamma else spin0 l r gamma

/-- Head speed after the shock override of lines 115-118. -/
noncomputable def spout (l r : Prim) (gamma : ℝ) : ℝ :=
  if p_star l r gamma > p_o l r gamma then ushock l r gamma else spout0 l r gamma

/-- Average sound speed of the two sanitized input states, line 121. -/
noncomputable def cavg (l r : Prim) (gamma : ℝ) : ℝ :=
  0.5 * (Real.sqrt (gamma * l.p / l.rho) + Real.sqrt (gamma * r.p / r.rho))

/-- Regularized interpolation denominator, lines 120-124. -/
noncomputable def scr (l r : Prim) (gamma : ℝ) : ℝ :=
  if spout l r gamma - spin l r gamma = 0 then small_u * 0.5 * cavg l r gamma
  else spout l r gamma - spin l r gamma

/-- Interpolation fraction before clamping, line 127. -/
noncomputable def frac_raw (l r : Prim) (gamma : ℝ) : ℝ :=
  0.5 * (1 + (spout l r gamma + spin l r gamma) / scr l r gamma)

/-- Interpolation fraction after the clamp of line 128: frac = max(0, min(1, frac)). -/
noncomputable def frac (l r : Prim) (gamma : ℝ) : ℝ :=
  max 0 (min 1 (frac_raw l r gamma))

/-- Interpolated interface density, line 130. -/
noncomputable def rho_int0 (l r : Prim) (gamma : ℝ) : ℝ :=
  frac l r gamma * rho_star l r gamma + (1 - frac l r gamma) * rho_o l r gamma

/-- Interpolated interface velocity, line 131. -/
noncomputable def u_int0 (l r : Prim) (gamma : ℝ) : ℝ :=
  frac l r gamma * u_star l r gamma + (1 - frac l r gamma) * u_o l r gamma

/-- Interpolated interface pressure, line 132. -/
noncomputable def p_int0 (l r : Prim) (gamma : ℝ) : ℝ :=
  frac l r gamma * p_star l r gamma + (1 - frac l r gamma) * p_o l r gamma

/-- Interface density after the spout < 0 override of lines 135-138. -/
noncomputable def rho_int1 (l r : Prim) (gamma : ℝ) : ℝ :=
  if spout l r gamma < 0 then rho_o l r gamma else rho_int0 l r gamma

/-- Interface velocity after the spout < 0 override of lines 135-138. -/
noncomputable def u_int1 (l r : Prim) (gamma : ℝ) : ℝ :=
  if spout l r gamma < 0 then u_o l r gamma else u_int0 l r gamma

/-- Interface pressure after the spout < 0 override of lines 135-138. -/
noncomputable def p_int1 (l r : Prim) (gamma : ℝ) : ℝ :=
  if spout l r gamma < 0 then p_o l r gamma else p_int0 l r gamma

/-- Final interface density after the spin >= 0 override of lines 140-143. -/
noncomputable def rho_int (l r : Prim) (gamma : ℝ) : ℝ :=
  if spin l r gamma ≥ 0 then rho_star l r gamma else rho_int1 l r gamma

/-- Final interface velocity after the spin >= 0 override of lines 140-143. -/
noncomputable def u_int (l r : Prim) (gamma : ℝ) : ℝ :=
  if spin l r gamma ≥ 0 then u_star l r gamma else u_int1 l r gamma

/-- Final interface pressure after the spin >= 0 override of lines 140-143. -/
noncomputable def p_int (l r : Prim) (gamma : ℝ) : ℝ :=
  if spin l r gamma ≥ 0 then p_star l r gamma else p_int1 l r gamma

/-- The full solver, lines 54-150: sanitize both states, run the core pipeline,
assemble the conserved-variable flux of lines 146-148. -/
noncomputable def riemann (q_l q_r : Prim) (gamma : ℝ) : Flux :=
  ⟨rho_int (san q_l) (san q_r) gamma * u_int (san q_l) (san q_r) gamma,
   rho_int (san q_l) (san q_r) gamma * u_int (san q_l) (san q_r) gamma ^ 2 +
     p_int (san q_l) (san q_r) gamma,
   u_int (san q_l) (san q_r) gamma *
     (p_int (san q_l) (san q_r) gamma / (gamma - 1) +
       0.5 * rho_int (san q_l) (san q_r) gamma * u_int (san q_l) (san q_r) gamma ^ 2 +
       p_int (san q_l) (san q_r) gamma)⟩

/-- The mirrored state of the reflection-symmetry property: same density and
pressure, negated velocity. -/
noncomputable def mirror (q : Prim) : Prim :=
  ⟨q.rho, -q.u, q.p⟩

theorem small_rho_pos : (0 : ℝ) < small_rho := by norm_num [small_rho]

theorem small_p_pos : (0 : ℝ) < small_p := by norm_num [small_p]

theorem small_u_pos : (0 : ℝ) < small_u := by norm_num [small_u]

theorem rho_o_pos (l r : Prim) (gamma : ℝ) : 0 < rho_o l r gamma :=
  lt_of_lt_of_le small_rho_pos (le_max_right _ _)

theorem p_star_pos (l r : Prim) (gamma : ℝ) : 0 < p_star l r gamma :=
  lt_of_lt_of_le small_p_pos (le_max_right _ _)

/-- Claim C3: the final interface primitive state is the star state when spin is
nonnegative (regardless of spout), otherwise the reference state when spout is
negative, otherwise the interpolated blend: the spin override is applied last
and takes precedence. -/
theorem c3_boundary_override_precedence (l r : Prim) (gamma : ℝ) :
    rho_int l r gamma =
      (if spin l r gamma ≥ 0 then rho_star l r gamma
       else if spout l r gamma < 0 then rho_o l r gamma else rho_int0 l r gamma) ∧
    u_int l r gamma =
      (if spin l r gamma ≥ 0 then u_star l r gamma
       else if spout l r gamma < 0 then u_o l r gamma else u_int0 l r gamma) ∧
    p_int l r gamma =
      (if spin l r gamma ≥ 0 then p_star l r gamma
       else if spout l r gamma < 0 then p_o l r gamma else p_int0 l r gamma) :=
  ⟨rfl, rfl, rfl⟩

/-- Claim C4: the star pressure and velocity are the single-pass acoustic-impedance
estimates, with W equal to sqrt of gamma times pressure times density on each
sanitized side, and the star pressure floored at small_p. -/
theorem c4_star_state_estimate (l r : Prim) (gamma : ℝ) :
    p_star l r gamma =
      max ((Real.sqrt (gamma * r.p * r.rho) * l.p + Real.sqrt (gamma * l.p * l.rho) * r.p +
            Real.sqrt (gamma * l.p * l.rho) * Real.sqrt (gamma * r.p * r.rho) * (l.u - r.u)) /
           (Real.sqrt (gamma * l.p * l.rho) + Real.sqrt (gamma * r.p * r.rho))) small_p ∧
    u_star l r gamma =
      (Real.sqrt (gamma * l.p * l.rho) * l.u + Real.sqrt (gamma * r.p * r.rho) * r.u +
        (l.p - r.p)) /
      (Real.sqrt (gamma * l.p * l.rho) + Real.sqrt (gamma * r.p * r.rho)) := by
  constructor
  · unfold p_star p_star_raw wwinv w_l w_r
    rw [mul_one_div]
  · unfold u_star wwinv w_l w_r
    rw [mul_one_div]

/-- Claim C5: the reference state is the sanitized left state when u_star is
positive, the sanitized right state when u_star is negative, and the
componentwise average when u_star is zero; its density is then floored at
small_rho and the reference sound speed is sqrt of gamma times p_o over rho_o. -/
theorem c5_reference_side_selection (l r : Prim) (gamma : ℝ) :
    q_o l r gamma =
      (if 0 < u_star l r gamma then l
       else if u_star l r gamma < 0 then r
       else ⟨0.5 * (l.rho + r.rho), 0.5 * (l.u + r.u), 0.5 * (l.p + r.p)⟩) ∧
    rho_o l r gamma = max (q_o l r gamma).rho small_rho ∧
    u_o l r gamma = (q_o l r gamma).u ∧
    p_o l r gamma = (q_o l r gamma).p ∧
    c_o l r gamma = Real.sqrt (gamma * p_o l r gamma / rho_o l r gamma) :=
  ⟨rfl, rfl, rfl, rfl, rfl⟩

/-- Claim C7: the interpolation fraction is the clamp into the unit interval of
half of one plus the ratio of spout plus spin to scr, and after clamping it
lies between zero and one. -/
theorem c7_fraction_clamp (l r : Prim) (gamma : ℝ) :
    frac l r gamma =
      max 0 (min 1 (0.5 * (1 + (spout l r gamma + spin l r gamma) / scr l r gamma))) ∧
    0 ≤ frac l r gamma ∧ frac l r gamma ≤ 1 :=
  ⟨rfl, le_max_left _ _, max_le zero_le_one (min_le_left _ _)⟩

/-- Claim C8: the returned flux is exactly the ideal-gas Euler flux evaluated at the
sampled interface state, with no further branching. -/
theorem c8_flux_assembly (q_l q_r : Prim) (gamma : ℝ) :
    riemann q_l q_r gamma =
      ⟨rho_int (san q_l) (san q_r) gamma * u_int (san q_l) (san q_r) gamma,
       rho_int (san q_l) (san q_r) gamma * u_int (san q_l) (san q_r) gamma ^ 2 +
         p_int (san q_l) (san q_r) gamma,
       u_int (san q_l) (san q_r) gamma *
         (p_int (san q_l) (san q_r) gamma / (gamma - 1) +
           0.5 * rho_int (san q_l) (san q_r) gamma * u_int (san q_l) (san q_r) gamma ^ 2 +
           p_int (san q_l) (san q_r) gamma)⟩ :=
  rfl

theorem san_rho_ge (q : Prim) : small_rho ≤ (san q).rho := le_max_right _ _

theorem san_p_ge (q : Prim) : small_p ≤ (san q).p := le_max_right _ _

theorem san_rho_pos (q : Prim) : 0 < (san q).rho :=
  lt_of_lt_of_le small_rho_pos (san_rho_ge q)

theorem san_p_pos (q : Prim) : 0 < (san q).p :=
  lt_of_lt_of_le small_p_pos (san_p_ge q)

theorem w_l_pos (l : Prim) (gamma : ℝ) (hg : 0 < gamma) (hp : 0 < l.p)
    (hrho : 0 < l.rho) : 0 < w_l l gamma :=
  Real.sqrt_pos.mpr (by positivity)

theorem w_r_pos (r : Prim) (gamma : ℝ) (hg : 0 < gamma) (hp : 0 < r.p)
    (hrho : 0 < r.rho) : 0 < w_r r gamma :=
  Real.sqrt_pos.mpr (by positivity)

theorem p_o_pos (l r : Prim) (gamma : ℝ) (hlp : 0 < l.p) (hrp : 0 < r.p) :
    0 < p_o l r gamma := by
  unfold p_o q_o
  split_ifs
  · exact hlp
  · exact hrp
  · show 0 < 0.5 * (l.p + r.p)
    positivity

theorem c_o_pos (l r : Prim) (gamma : ℝ) (hg : 0 < gamma) (hlp : 0 < l.p)
    (hrp : 0 < r.p) : 0 < c_o l r gamma :=
  Real.sqrt_pos.mpr (div_pos (mul_pos hg (p_o_pos l r gamma hlp hrp)) (rho_o_pos l r gamma))

theorem c_o_sq (l r : Prim) (gamma : ℝ) (hg : 0 < gamma) (hlp : 0 < l.p)
    (hrp : 0 < r.p) : c_o l r gamma ^ 2 = gamma * p_o l r gamma / rho_o l r gamma :=
  Real.sq_sqrt (le_of_lt (div_pos (mul_pos hg (p_o_pos l r gamma hlp hrp))
    (rho_o_pos l r gamma)))

theorem rho_star_eq (l r : Prim) (gamma : ℝ) (hg : 0 < gamma) (hlp : 0 < l.p)
    (hrp : 0 < r.p) :
    rho_star l r gamma =
      rho_o l r gamma / (gamma * p_o l r gamma) *
        ((gamma - 1) * p_o l r gamma + p_star l r gamma) := by
  have hpo := p_o_pos l r gamma hlp hrp
  have hro := rho_o_pos l r gamma
  unfold rho_star drho
  rw [c_o_sq l r gamma hg hlp hrp]
  field_simp
  ring

theorem rho_star_pos (l r : Prim) (gamma : ℝ) (hg : 1 < gamma) (hlp : 0 < l.p)
    (hrp : 0 < r.p) : 0 < rho_star l r gamma := by
  have hg0 : 0 < gamma := lt_trans one_pos hg
  rw [rho_star_eq l r gamma hg0 hlp hrp]
  have hpo := p_o_pos l r gamma hlp hrp
  have hro := rho_o_pos l r gamma
  have hps := p_star_pos l r gamma
  have h1 : 0 < (gamma - 1) * p_o l r gamma + p_star l r gamma := by
    have := mul_pos (sub_pos.mpr hg) hpo
    linarith
  positivity

theorem cavg_pos (l r : Prim) (gamma : ℝ) (hg : 0 < gamma) (hlp : 0 < l.p)
    (hlrho : 0 < l.rho) (hrp : 0 < r.p) (hrrho : 0 < r.rho) :
    0 < cavg l r gamma := by
  unfold cavg
  have h1 : 0 < Real.sqrt (gamma * l.p / l.rho) := Real.sqrt_pos.mpr (by positivity)
  have h2 : 0 < Real.sqrt (gamma * r.p / r.rho) := Real.sqrt_pos.mpr (by positivity)
  positivity

theorem scr_ne_zero (l r : Prim) (gamma : ℝ) (hg : 0 < gamma) (hlp : 0 < l.p)
    (hlrho : 0 < l.rho) (hrp : 0 < r.p) (hrrho : 0 < r.rho) :
    scr l r gamma ≠ 0 := by
  unfold scr
  split_ifs with h
  · have := cavg_pos l r gamma hg hlp hlrho hrp hrrho
    have := small_u_pos
    positivity
  · exact h

/-- Claim C9: under gamma greater than one, every division and square root of the
kernel is well-defined on sanitized inputs: the impedance sum is positive, the
reference sound speed is positive, scr is never zero, gamma minus one is
nonzero, the star density is positive (being rho_o over gamma p_o times the
positive quantity (gamma-1) p_o + p_star), and the argument of the square root
defining c_star is positive. -/
theorem c9_totality (q_l q_r : Prim) (gamma : ℝ) (hg : 1 < gamma) :
    0 < w_l (san q_l) gamma + w_r (san q_r) gamma ∧
    0 < c_o (san q_l) (san q_r) gamma ∧
    scr (san q_l) (san q_r) gamma ≠ 0 ∧
    gamma - 1 ≠ 0 ∧
    rho_star (san q_l) (san q_r) gamma =
      rho_o (san q_l) (san q_r) gamma / (gamma * p_o (san q_l) (san q_r) gamma) *
        ((gamma - 1) * p_o (san q_l) (san q_r) gamma + p_star (san q_l) (san q_r) gamma) ∧
    0 < rho_star (san q_l) (san q_r) gamma ∧
    0 < gamma * p_star (san q_l) (san q_r) gamma / rho_star (san q_l) (san q_r) gamma := by
  have hg0 : 0 < gamma := lt_trans one_pos hg
  have hlp := san_p_pos q_l
  have hlr := san_rho_pos q_l
  have hrp := san_p_pos q_r
  have hrr := san_rho_pos q_r
  refine ⟨?_, ?_, ?_, ?_, ?_, ?_, ?_⟩
  · exact add_pos (w_l_pos _ _ hg0 hlp hlr) (w_r_pos _ _ hg0 hrp hrr)
  · exact c_o_pos _ _ _ hg0 hlp hrp
  · exact scr_ne_zero _ _ _ hg0 hlp hlr hrp hrr
  · exact sub_ne_zero.mpr (ne_of_gt hg)
  · exact rho_star_eq _ _ _ hg0 hlp hrp
  · exact rho_star_pos _ _ _ hg hlp hrp
  · exact div_pos (mul_pos hg0 (p_star_pos _ _ _)) (rho_star_pos _ _ _ hg hlp hrp)

/-- Witness for C9 at the Sod left state on both sides with gamma = 2. -/
theorem c9_totality_witness :
    0 < w_l (san ⟨1, 0, 1⟩) 2 + w_r (san ⟨1, 0, 1⟩) 2 ∧
    0 < c_o (san ⟨1, 0, 1⟩) (san ⟨1, 0, 1⟩) 2 ∧
    scr (san ⟨1, 0, 1⟩) (san ⟨1, 0, 1⟩) 2 ≠ 0 ∧
    (2 : ℝ) - 1 ≠ 0 ∧
    rho_star (san ⟨1, 0, 1⟩) (san ⟨1, 0, 1⟩) 2 =
      rho_o (san ⟨1, 0, 1⟩) (san ⟨1, 0, 1⟩) 2 / (2 * p_o (san ⟨1, 0, 1⟩) (san ⟨1, 0, 1⟩) 2) *
        ((2 - 1) * p_o (san ⟨1, 0, 1⟩) (san ⟨1, 0, 1⟩) 2 +
          p_star (san ⟨1, 0, 1⟩) (san ⟨1, 0, 1⟩) 2) ∧
    0 < rho_star (san ⟨1, 0, 1⟩) (san ⟨1, 0, 1⟩) 2 ∧
    0 < 2 * p_star (san ⟨1, 0, 1⟩) (san ⟨1, 0, 1⟩) 2 / rho_star (san ⟨1, 0, 1⟩) (san ⟨1, 0, 1⟩) 2 :=
  c9_totality ⟨1, 0, 1⟩ ⟨1, 0, 1⟩ 2 (by norm_num)

/-- Claim C6: on a compressive (shock) input, both wave speeds collapse to ushock,
their difference is exactly zero, the degenerate-fan guard fires, and the
interpolation denominator is the regularized small_u * 0.5 * cavg with cavg
the average sound speed of the two sanitized input states. -/
theorem c6_shock_collapse (l r : Prim) (gamma : ℝ)
    (h : p_o l r gamma < p_star l r gamma) :
    spin l r gamma = ushock l r gamma ∧
    spout l r gamma = ushock l r gamma ∧
    spout l r gamma - spin l r gamma = 0 ∧
    scr l r gamma = small_u * 0.5 * cavg l r gamma ∧
    cavg l r gamma =
      0.5 * (Real.sqrt (gamma * l.p / l.rho) + Real.sqrt (gamma * r.p / r.rho)) := by
  have h1 : spin l r gamma = ushock l r gamma := by
    unfold spin
    rw [if_pos h]
  have h2 : spout l r gamma = ushock l r gamma := by
    unfold spout
    rw [if_pos h]
  have h3 : spout l r gamma - spin l r gamma = 0 := by
    rw [h1, h2, sub_self]
  have h4 : scr l r gamma = small_u * 0.5 * cavg l r gamma := by
    unfold scr
    rw [if_pos h3]
  exact ⟨h1, h2, h3, h4, rfl⟩

/-- Witness for C6 at the colliding-flow input with gamma = 4, where the star
pressure is 3 and the reference pressure is 1. -/
theorem c6_shock_collapse_witness :
    spin ⟨1, 1, 1⟩ ⟨1, -1, 1⟩ 4 = ushock ⟨1, 1, 1⟩ ⟨1, -1, 1⟩ 4 ∧
    spout ⟨1, 1, 1⟩ ⟨1, -1, 1⟩ 4 = ushock ⟨1, 1, 1⟩ ⟨1, -1, 1⟩ 4 ∧
    spout ⟨1, 1, 1⟩ ⟨1, -1, 1⟩ 4 - spin ⟨1, 1, 1⟩ ⟨1, -1, 1⟩ 4 = 0 ∧
    scr ⟨1, 1, 1⟩ ⟨1, -1, 1⟩ 4 = small_u * 0.5 * cavg ⟨1, 1, 1⟩ ⟨1, -1, 1⟩ 4 ∧
    cavg ⟨1, 1, 1⟩ ⟨1, -1, 1⟩ 4 =
      0.5 * (Real.sqrt (4 * (1 : ℝ) / 1) + Real.sqrt (4 * (1 : ℝ) / 1)) :=
  c6_shock_collapse ⟨1, 1, 1⟩ ⟨1, -1, 1⟩ 4 (by
    have hsq : Real.sqrt (4 : ℝ) = 2 := by
      rw [show (4 : ℝ) = 2 ^ 2 by norm_num]
      exact Real.sqrt_sq (by norm_num)
    have hu : u_star ⟨1, 1, 1⟩ ⟨1, -1, 1⟩ 4 = 0 := by
      unfold u_star wwinv w_l w_r
      norm_num
    have hpo : p_o ⟨1, 1, 1⟩ ⟨1, -1, 1⟩ 4 = 1 := by
      unfold p_o q_o
      simp only [hu]
      norm_num
    have hraw : p_star_raw ⟨1, 1, 1⟩ ⟨1, -1, 1⟩ 4 = 3 := by
      unfold p_star_raw wwinv w_l w_r
      norm_num [hsq]
    have hps : p_star ⟨1, 1, 1⟩ ⟨1, -1, 1⟩ 4 = 3 := by
      unfold p_star
      rw [hraw, max_eq_left (by norm_num [small_p])]
    rw [hpo, hps]
    norm_num)

theorem riemann_san_congr (a b a2 b2 : Prim) (gamma : ℝ) (h1 : san a = san a2)
    (h2 : san b = san b2) : riemann a b gamma = riemann a2 b2 gamma := by
  unfold riemann
  rw [h1, h2]

theorem san_floor_rho (q : Prim) (h : q.rho ≤ 0) : san q = san ⟨small_rho, q.u, q.p⟩ := by
  simp [san, max_self, max_eq_right (le_trans h (le_of_lt small_rho_pos))]

theorem san_floor_p (q : Prim) (h : q.p ≤ 0) : san q = san ⟨q.rho, q.u, small_p⟩ := by
  simp [san, max_self, max_eq_right (le_trans h (le_of_lt small_p_pos))]

/-- Claim C10: the kernel is total on non-positive densities and pressures, and any
input with a non-positive density or pressure component produces exactly the
flux of the same input with that component replaced by the floor constant,
velocities passing through unchanged. -/
theorem c10_flooring (q_l q_r : Prim) (gamma : ℝ) :
    (q_l.rho ≤ 0 → riemann q_l q_r gamma = riemann ⟨small_rho, q_l.u, q_l.p⟩ q_r gamma) ∧
    (q_l.p ≤ 0 → riemann q_l q_r gamma = riemann ⟨q_l.rho, q_l.u, small_p⟩ q_r gamma) ∧
    (q_r.rho ≤ 0 → riemann q_l q_r gamma = riemann q_l ⟨small_rho, q_r.u, q_r.p⟩ gamma) ∧
    (q_r.p ≤ 0 → riemann q_l q_r gamma = riemann q_l ⟨q_r.rho, q_r.u, small_p⟩ gamma) := by
  refine ⟨fun h => ?_, fun h => ?_, fun h => ?_, fun h => ?_⟩
  · exact riemann_san_congr _ _ _ _ _ (san_floor_rho q_l h) rfl
  · exact riemann_san_congr _ _ _ _ _ (san_floor_p q_l h) rfl
  · exact riemann_san_congr _ _ _ _ _ rfl (san_floor_rho q_r h)
  · exact riemann_san_congr _ _ _ _ _ rfl (san_floor_p q_r h)

/-- Witness for C10 at a negative left density. -/
theorem c10_flooring_witness :
    riemann ⟨-1, 2, 3⟩ ⟨4, 5, 6⟩ 2 = riemann ⟨small_rho, 2, 3⟩ ⟨4, 5, 6⟩ 2 :=
  (c10_flooring ⟨-1, 2, 3⟩ ⟨4, 5, 6⟩ 2).1 (by norm_num)

theorem core_rest (s : Prim) (gamma : ℝ) (hg : 0 < gamma) (hu : s.u = 0)
    (hrho : small_rho ≤ s.rho) (hp : small_p ≤ s.p) :
    rho_int s s gamma = s.rho ∧ u_int s s gamma = 0 ∧ p_int s s gamma = s.p := by
  have hrho0 : 0 < s.rho := lt_of_lt_of_le small_rho_pos hrho
  have hp0 : 0 < s.p := lt_of_lt_of_le small_p_pos hp
  have hW : 0 < Real.sqrt (gamma * s.p * s.rho) := Real.sqrt_pos.mpr (by positivity)
  have hWne : Real.sqrt (gamma * s.p * s.rho) ≠ 0 := ne_of_gt hW
  have hus : u_star s s gamma = 0 := by
    unfold u_star wwinv w_l w_r
    rw [hu]
    ring
  have hpsraw : p_star_raw s s gamma = s.p := by
    unfold p_star_raw wwinv w_l w_r
    rw [sub_self, mul_zero, add_zero]
    field_simp
    ring
  have hps : p_star s s gamma = s.p := by
    unfold p_star
    rw [hpsraw, max_eq_left hp]
  have hpo : p_o s s gamma = s.p := by
    unfold p_o q_o
    simp only [hus, gt_iff_lt, lt_self_iff_false, if_false]
    show 0.5 * (s.p + s.p) = s.p
    ring
  have huo : u_o s s gamma = 0 := by
    unfold u_o q_o
    simp only [hus, gt_iff_lt, lt_self_iff_false, if_false]
    show 0.5 * (s.u + s.u) = 0
    rw [hu]
    ring
  have hro : rho_o s s gamma = s.rho := by
    unfold rho_o q_o
    simp only [hus, gt_iff_lt, lt_self_iff_false, if_false]
    show max (0.5 * (s.rho + s.rho)) small_rho = s.rho
    rw [show 0.5 * (s.rho + s.rho) = s.rho by ring, max_eq_left hrho]
  have hdrho : drho s s gamma = 0 := by
    unfold drho
    rw [hps, hpo, sub_self, zero_div]
  have hrs : rho_star s s gamma = s.rho := by
    unfold rho_star
    rw [hdrho, add_zero, hro]
  have hcs : c_star s s gamma = c_o s s gamma := by
    unfold c_star c_o
    rw [hps, hrs, hpo, hro]
  have noshock : ¬p_star s s gamma > p_o s s gamma := by
    rw [hps, hpo]
    exact lt_irrefl _
  have hspin : spin s s gamma = c_o s s gamma := by
    unfold spin spin0
    rw [if_neg noshock, hus, hcs]
    simp [sgn]
  have hspin_nonneg : spin s s gamma ≥ 0 := by
    rw [hspin]
    unfold c_o
    exact Real.sqrt_nonneg _
  refine ⟨?_, ?_, ?_⟩
  · unfold rho_int
    rw [if_pos hspin_nonneg, hrs]
  · unfold u_int
    rw [if_pos hspin_nonneg, hus]
  · unfold p_int
    rw [if_pos hspin_nonneg, hps]

theorem riemann_rest (rho p gamma : ℝ) (hg : 0 < gamma) :
    riemann ⟨rho, 0, p⟩ ⟨rho, 0, p⟩ gamma = ⟨0, max p small_p, 0⟩ := by
  have hsan : san ⟨rho, 0, p⟩ = ⟨max rho small_rho, 0, max p small_p⟩ := rfl
  obtain ⟨h1, h2, h3⟩ :=
    core_rest ⟨max rho small_rho, 0, max p small_p⟩ gamma hg rfl
      (le_max_right _ _) (le_max_right _ _)
  unfold riemann
  rw [hsan, h1, h2, h3]
  norm_num

/-- Claim C1 amended: if both inputs are the common rest state with pressure at or
above the pressure floor and gamma exceeds one, the returned flux is exactly
zero mass flux, the common pressure as momentum flux, and zero energy flux. -/
theorem c1_trivial_equilibrium_amended (rho p gamma : ℝ) (hg : 1 < gamma)
    (hp : small_p ≤ p) :
    riemann ⟨rho, 0, p⟩ ⟨rho, 0, p⟩ gamma = ⟨0, p, 0⟩ := by
  rw [riemann_rest rho p gamma (lt_trans one_pos hg), max_eq_left hp]

/-- Witness for the amended C1 at rho = 1, p = 1, gamma = 2. -/
theorem c1_trivial_equilibrium_witness :
    riemann ⟨1, 0, 1⟩ ⟨1, 0, 1⟩ 2 = ⟨0, 1, 0⟩ :=
  c1_trivial_equilibrium_amended 1 1 2 (by norm_num) (by norm_num [small_p])

/-- Claim C1 as stated is false: at the rest state with the positive pressure 1e-11
below the floor, the momentum flux is the floor 1e-10, not the input pressure. -/
theorem c1_trivial_equilibrium_counterexample :
    riemann ⟨1, 0, 1e-11⟩ ⟨1, 0, 1e-11⟩ (7 / 5) ≠ ⟨0, 1e-11, 0⟩ := by
  rw [riemann_rest 1 1e-11 (7 / 5) (by norm_num)]
  have hmax : max (1e-11 : ℝ) small_p = 1e-10 := by
    rw [max_eq_right (by norm_num [small_p])]
    norm_num [small_p]
  rw [hmax]
  intro hcontra
  have h2 := congrArg Flux.mom hcontra
  norm_num at h2

theorem mirror_san (q : Prim) : san (mirror q) = mirror (san q) := rfl

theorem w_l_mirror (r : Prim) (gamma : ℝ) : w_l (mirror r) gamma = w_r r gamma := rfl

theorem w_r_mirror (l : Prim) (gamma : ℝ) : w_r (mirror l) gamma = w_l l gamma := rfl

theorem wwinv_mirror (l r : Prim) (gamma : ℝ) :
    wwinv (mirror r) (mirror l) gamma = wwinv l r gamma := by
  unfold wwinv
  rw [w_l_mirror, w_r_mirror, add_comm]

theorem u_star_mirror (l r : Prim) (gamma : ℝ) :
    u_star (mirror r) (mirror l) gamma = -u_star l r gamma := by
  unfold u_star
  rw [w_l_mirror, w_r_mirror, wwinv_mirror]
  simp only [mirror]
  ring

theorem p_star_raw_mirror (l r : Prim) (gamma : ℝ) :
    p_star_raw (mirror r) (mirror l) gamma = p_star_raw l r gamma := by
  unfold p_star_raw
  rw [w_l_mirror, w_r_mirror, wwinv_mirror]
  simp only [mirror]
  ring

theorem p_star_mirror (l r : Prim) (gamma : ℝ) :
    p_star (mirror r) (mirror l) gamma = p_star l r gamma := by
  unfold p_star
  rw [p_star_raw_mirror]

theorem q_o_mirror (l r : Prim) (gamma : ℝ) :
    q_o (mirror r) (mirror l) gamma = mirror (q_o l r gamma) := by
  unfold q_o
  rw [u_star_mirror]
  rcases lt_trichotomy (u_star l r gamma) 0 with h | h | h
  · rw [if_pos (by linarith : -u_star l r gamma > 0),
      if_neg (by linarith : ¬u_star l r gamma > 0), if_pos h]
  · rw [h]
    norm_num
    ext <;> simp [mirror] <;> ring
  · rw [if_neg (by linarith : ¬-u_star l r gamma > 0),
      if_pos (by linarith : -u_star l r gamma < 0), if_pos h]

theorem rho_o_mirror (l r : Prim) (gamma : ℝ) :
    rho_o (mirror r) (mirror l) gamma = rho_o l r gamma := by
  unfold rho_o
  rw [q_o_mirror]
  simp [mirror]

theorem u_o_mirror (l r : Prim) (gamma : ℝ) :
    u_o (mirror r) (mirror l) gamma = -u_o l r gamma := by
  unfold u_o
  rw [q_o_mirror]
  simp [mirror]

theorem p_o_mirror (l r : Prim) (gamma : ℝ) :
    p_o (mirror r) (mirror l) gamma = p_o l r gamma := by
  unfold p_o
  rw [q_o_mirror]
  simp [mirror]

theorem c_o_mirror (l r : Prim) (gamma : ℝ) :
    c_o (mirror r) (mirror l) gamma = c_o l r gamma := by
  unfold c_o
  rw [p_o_mirror, rho_o_mirror]

theorem drho_mirror (l r : Prim) (gamma : ℝ) :
    drho (mirror r) (mirror l) gamma = drho l r gamma := by
  unfold drho
  rw [p_star_mirror, p_o_mirror, c_o_mirror]

theorem rho_star_mirror (l r : Prim) (gamma : ℝ) :
    rho_star (mirror r) (mirror l) gamma = rho_star l r gamma := by
  unfold rho_star
  rw [rho_o_mirror, drho_mirror]

theorem c_star_mirror (l r : Prim) (gamma : ℝ) :
    c_star (mirror r) (mirror l) gamma = c_star l r gamma := by
  unfold c_star
  rw [p_star_mirror, rho_star_mirror]

theorem sgn_neg (x : ℝ) : sgn (-x) = -sgn x := by
  unfold sgn
  rcases lt_trichotomy x 0 with h | h | h
  · rw [if_pos (by linarith : -x > 0), if_neg (by linarith : ¬x > 0), if_pos h]
    norm_num
  · rw [h]
    norm_num
  · rw [if_neg (by linarith : ¬-x > 0), if_pos (by linarith : -x < 0), if_pos h]

theorem spout0_mirror (l r : Prim) (gamma : ℝ) :
    spout0 (mirror r) (mirror l) gamma = spout0 l r gamma := by
  unfold spout0
  rw [c_o_mirror, u_star_mirror, sgn_neg, u_o_mirror]
  ring

theorem spin0_mirror (l r : Prim) (gamma : ℝ) :
    spin0 (mirror r) (mirror l) gamma = spin0 l r gamma := by
  unfold spin0
  rw [c_star_mirror, u_star_mirror, sgn_neg]
  ring

theorem ushock_mirror (l r : Prim) (gamma : ℝ) :
    ushock (mirror r) (mirror l) gamma = ushock l r gamma := by
  unfold ushock
  rw [spin0_mirror, spout0_mirror]

theorem spin_mirror (l r : Prim) (gamma : ℝ) :
    spin (mirror r) (mirror l) gamma = spin l r gamma := by
  unfold spin
  rw [p_star_mirror, p_o_mirror, ushock_mirror, spin0_mirror]

theorem spout_mirror (l r : Prim) (gamma : ℝ) :
    spout (mirror r) (mirror l) gamma = spout l r gamma := by
  unfold spout
  rw [p_star_mirror, p_o_mirror, ushock_mirror, spout0_mirror]

theorem cavg_mirror (l r : Prim) (gamma : ℝ) :
    cavg (mirror r) (mirror l) gamma = cavg l r gamma := by
  unfold cavg
  simp only [mirror]
  ring

theorem scr_mirror (l r : Prim) (gamma : ℝ) :
    scr (mirror r) (mirror l) gamma = scr l r gamma := by
  unfold scr
  rw [spout_mirror, spin_mirror, cavg_mirror]

theorem frac_mirror (l r : Prim) (gamma : ℝ) :
    frac (mirror r) (mirror l) gamma = frac l r gamma := by
  unfold frac frac_raw
  rw [spout_mirror, spin_mirror, scr_mirror]

theorem rho_int0_mirror (l r : Prim) (gamma : ℝ) :
    rho_int0 (mirror r) (mirror l) gamma = rho_int0 l r gamma := by
  unfold rho_int0
  rw [frac_mirror, rho_star_mirror, rho_o_mirror]

theorem u_int0_mirror (l r : Prim) (gamma : ℝ) :
    u_int0 (mirror r) (mirror l) gamma = -u_int0 l r gamma := by
  unfold u_int0
  rw [frac_mirror, u_star_mirror, u_o_mirror]
  ring

theorem p_int0_mirror (l r : Prim) (gamma : ℝ) :
    p_int0 (mirror r) (mirror l) gamma = p_int0 l r gamma := by
  unfold p_int0
  rw [frac_mirror, p_star_mirror, p_o_mirror]

theorem rho_int1_mirror (l r : Prim) (gamma : ℝ) :
    rho_int1 (mirror r) (mirror l) gamma = rho_int1 l r gamma := by
  unfold rho_int1
  rw [spout_mirror, rho_o_mirror, rho_int0_mirror]

theorem u_int1_mirror (l r : Prim) (gamma : ℝ) :
    u_int1 (mirror r) (mirror l) gamma = -u_int1 l r gamma := by
  unfold u_int1
  rw [spout_mirror, u_o_mirror, u_int0_mirror]
  split_ifs <;> rfl

theorem p_int1_mirror (l r : Prim) (gamma : ℝ) :
    p_int1 (mirror r) (mirror l) gamma = p_int1 l r gamma := by
  unfold p_int1
  rw [spout_mirror, p_o_mirror, p_int0_mirror]

theorem rho_int_mirror (l r : Prim) (gamma : ℝ) :
    rho_int (mirror r) (mirror l) gamma = rho_int l r gamma := by
  unfold rho_int
  rw [spin_mirror, rho_star_mirror, rho_int1_mirror]

theorem u_int_mirror (l r : Prim) (gamma : ℝ) :
    u_int (mirror r) (mirror l) gamma = -u_int l r gamma := by
  unfold u_int
  rw [spin_mirror, u_star_mirror, u_int1_mirror]
  split_ifs <;> rfl

theorem p_int_mirror (l r : Prim) (gamma : ℝ) :
    p_int (mirror r) (mirror l) gamma = p_int l r gamma := by
  unfold p_int
  rw [spin_mirror, p_star_mirror, p_int1_mirror]

/-- Claim C2: swapping the two input states and negating both velocities negates the
mass and energy flux components and leaves the momentum flux unchanged. -/
theorem c2_reflection_symmetry (q_l q_r : Prim) (gamma : ℝ) :
    riemann ⟨q_r.rho, -q_r.u, q_r.p⟩ ⟨q_l.rho, -q_l.u, q_l.p⟩ gamma =
      ⟨-(riemann q_l q_r gamma).mass, (riemann q_l q_r gamma).mom,
        -(riemann q_l q_r gamma).ener⟩ := by
  show riemann (mirror q_r) (mirror q_l) gamma = _
  unfold riemann
  rw [mirror_san, mirror_san, rho_int_mirror, u_int_mirror, p_int_mirror]
  dsimp only
  refine Flux.ext ?_ ?_ ?_ <;> dsimp only <;> ring

end Hydro
